import Mathlib

/-!
Verification of the Courtify booking/coupon core (`server.js`).

The JavaScript source is shallowly embedded as follows:

* a persisted bookings collection (`bookings.json`) is a `List Booking`;
  the coupons collection is a `List Coupon`;
* JavaScript numbers are embedded as exact rationals `ℚ` (all prices and
  coupon amounts in the source are plain decimal literals and the arithmetic
  performed on them is `+ - * /`, `Math.max`, `Math.round`);
* a nullable JavaScript value is an `Option`; JavaScript string truthiness
  (`!x`, `x || d`) is modelled by `truthy` / `jsOrNullStr` / `jsOrNum`;
* each Express handler becomes a pure function from the read collection and
  the request data to a pair of (response, written collection); when a
  handler returns an error response before calling `writeBookingsSafe`, the
  written collection is the collection that was read, which models the fact
  that the persisted file is untouched on those paths;
* `uuidv4()` and `new Date().toISOString()` are modelled as explicit `id` /
  `now` arguments supplied by the environment; the process-wide `MOCK_MODE`
  flag is an explicit `mock : Bool` argument.
-/

namespace Courtify

/-- One entry of a booking's audit history (`pushHistory` in `server.js`). -/
structure HistoryEntry where
  ts : String
  actor : String
  action : String
  note : String
deriving DecidableEq, Repr

/-- A persisted booking record, as built by `POST /api/book`. -/
structure Booking where
  id : String
  serviceId : String
  serviceName : Option String
  unitId : String
  unitName : Option String
  date : String
  time : String
  customerName : String
  contact : Option String
  price : Option ℚ
  couponCode : Option String
  status : String
  confirmationCode : Option String
  createdAt : String
  updatedAt : String
  history : List HistoryEntry
deriving DecidableEq, Repr

/-- JavaScript truthiness of a nullable string: `null`/`undefined` and the
empty string are falsy. -/
def truthy : Option String → Bool
  | none => false
  | some s => !(s == "")

/-- JavaScript `x || null` on a nullable string: a falsy value becomes null. -/
def jsOrNullStr : Option String → Option String
  | none => none
  | some s => if s = "" then none else some s

/-- JavaScript `x || d` on a nullable number: `null`/`undefined` and `0`
are falsy and give the default. -/
def jsOrNum : Option ℚ → ℚ → ℚ
  | none, d => d
  | some x, d => if x = 0 then d else x

/-- `hasConflict` from `server.js` (lines 68-78): a slot is in conflict iff
some booking that is not excluded by `excludeId` and not cancelled matches
the `(unitId, date, time)` triple exactly (string equality).  Note that the
exclusion test is `excludeId && b.id === excludeId`: a null **or empty**
`excludeId` excludes nothing. -/
def hasConflict (bookings : List Booking) (unitId date time : String)
    (excludeId : Option String) : Bool :=
  bookings.any fun b =>
    if truthy excludeId = true ∧ some b.id = excludeId then false
    else if b.status = "cancelled" then false
    else decide (b.unitId = unitId ∧ b.date = date ∧ b.time = time)

/-- `pushHistory` from `server.js` (lines 80-88): appends one entry, with a
falsy actor replaced by `"system"`.  The current time is passed as `ts`. -/
def pushHistory (b : Booking) (ts actor action note : String) : Booking :=
  { b with history := b.history ++
      [{ ts := ts, actor := if actor = "" then "system" else actor,
         action := action, note := note }] }

/-- The error taxonomy of the booking/coupon handlers:
`validation` = HTTP 400 "Missing required fields" / "date and time required"
/ "code and originalPrice required", `conflict` = HTTP 409, `notFound` =
HTTP 404, `invalidState` = HTTP 400 "Cannot confirm a cancelled booking",
`exhausted` = HTTP 400 "Coupon max uses reached". -/
inductive Err where
  | validation
  | conflict
  | notFound
  | invalidState
  | exhausted
deriving DecidableEq, Repr

/-- The request body of `POST /api/book`. -/
structure CreatePayload where
  serviceId : Option String
  serviceName : Option String
  unitId : Option String
  unitName : Option String
  date : Option String
  time : Option String
  customerName : Option String
  contact : Option String
  price : Option ℚ
  couponCode : Option String
deriving DecidableEq, Repr

/-- The booking object built by `POST /api/book` on the success path
(lines 126-146), including its single `created` history entry. -/
def newBooking (mock : Bool) (p : CreatePayload) (id now : String) : Booking :=
  pushHistory
    { id := id
      serviceId := p.serviceId.getD ""
      serviceName := jsOrNullStr p.serviceName
      unitId := p.unitId.getD ""
      unitName := jsOrNullStr p.unitName
      date := p.date.getD ""
      time := p.time.getD ""
      customerName := p.customerName.getD ""
      contact := jsOrNullStr p.contact
      price := p.price
      couponCode := jsOrNullStr p.couponCode
      status := if mock then "confirmed_mock" else "pending"
      confirmationCode := none
      createdAt := now
      updatedAt := now
      history := [] }
    now "system" "created" "Booking created"

/-- `POST /api/book` (lines 109-151).  Returns the response and the
collection written back (unchanged on the error paths, which return before
`writeBookingsSafe`). -/
def createBooking (mock : Bool) (bookings : List Booking) (p : CreatePayload)
    (id now : String) : Except Err Booking × List Booking :=
  if ¬(truthy p.serviceId = true ∧ truthy p.unitId = true ∧ truthy p.date = true ∧
       truthy p.time = true ∧ truthy p.customerName = true) then
    (.error .validation, bookings)
  else if hasConflict bookings (p.unitId.getD "") (p.date.getD "") (p.time.getD "") none then
    (.error .conflict, bookings)
  else
    (.ok (newBooking mock p id now), bookings ++ [newBooking mock p id now])

/-- `bookings[idx] = booking` after `idx = bookings.findIndex(b => b.id === id)`:
replace the first booking whose id matches. -/
def setFirst (bookings : List Booking) (id : String) (nb : Booking) : List Booking :=
  match bookings with
  | [] => []
  | b :: rest => if b.id = id then nb :: rest else b :: setFirst rest id nb

/-- The mutation applied to a booking by the confirm handler (lines 169-171). -/
def confirmedBooking (mock : Bool) (booking : Booking) (now : String) : Booking :=
  pushHistory
    { booking with status := (if mock then "confirmed_mock" else "confirmed")
                   updatedAt := now } now "system" "confirmed" "Booking confirmed"

/-- `POST /api/book/:id/confirm` (lines 154-177). -/
def confirmBooking (mock : Bool) (bookings : List Booking) (id now : String) :
    Except Err Booking × List Booking :=
  match bookings.find? (fun b => decide (b.id = id)) with
  | none => (.error .notFound, bookings)
  | some booking =>
    if booking.status = "cancelled" then (.error .invalidState, bookings)
    else
      (.ok (confirmedBooking mock booking now),
       setFirst bookings id (confirmedBooking mock booking now))

/-- The mutation applied to a booking by the reschedule handler
(lines 200-204): only `date`, `time`, `updatedAt` and `history` change. -/
def rescheduledBooking (booking : Booking) (date time : Option String)
    (now : String) : Booking :=
  pushHistory
    { booking with date := date.getD ""
                   time := time.getD ""
                   updatedAt := now } now "user" "rescheduled"
    ("From " ++ booking.date ++ " " ++ booking.time ++ " to " ++
     date.getD "" ++ " " ++ time.getD "")

/-- `POST /api/book/:id/reschedule` (lines 180-210).  There is no check of
the target booking's status: any found booking, cancelled included, is
rescheduled when the new slot has no conflict (excluding the booking's own
id). -/
def rescheduleBooking (bookings : List Booking) (id : String)
    (date time : Option String) (now : String) :
    Except Err Booking × List Booking :=
  if ¬(truthy date = true ∧ truthy time = true) then (.error .validation, bookings)
  else
    match bookings.find? (fun b => decide (b.id = id)) with
    | none => (.error .notFound, bookings)
    | some booking =>
      if hasConflict bookings booking.unitId (date.getD "") (time.getD "")
          (some booking.id) then
        (.error .conflict, bookings)
      else
        (.ok (rescheduledBooking booking date time now),
         setFirst bookings id (rescheduledBooking booking date time now))

/-- The mutation applied to a booking by the cancel handler (lines 219-221). -/
def cancelledBooking (booking : Booking) (now : String) : Booking :=
  pushHistory
    { booking with status := "cancelled"
                   updatedAt := now } now "user" "cancelled" "Booking cancelled"

/-- `POST /api/book/:id/cancel` (lines 213-227): unconditionally sets the
status to `cancelled` for any found booking. -/
def cancelBooking (bookings : List Booking) (id now : String) :
    Except Err Booking × List Booking :=
  match bookings.find? (fun b => decide (b.id = id)) with
  | none => (.error .notFound, bookings)
  | some booking =>
    (.ok (cancelledBooking booking now),
     setFirst bookings id (cancelledBooking booking now))

/-- The metrics object of `GET /api/admin/analytics`. -/
structure Metrics where
  totalBookings : Nat
  confirmed : Nat
  cancelled : Nat
  revenue : ℚ
deriving DecidableEq, Repr

/-- `GET /api/admin/analytics` (lines 236-251). -/
def analytics (bookings : List Booking) : Metrics :=
  { totalBookings := bookings.length
    confirmed := (bookings.filter (fun b => decide (b.status = "confirmed"))).length
    cancelled := (bookings.filter (fun b => decide (b.status = "cancelled"))).length
    revenue := bookings.foldl
      (fun sum b => sum + (match b.price with | some q => q | none => 0)) 0 }

/-- A catalog coupon record (`coupons.json`). -/
structure Coupon where
  id : String
  code : String
  type : String
  amount : ℚ
  maxUses : Option ℚ
  used : Option ℚ
deriving DecidableEq, Repr

/-- The public echo of a coupon returned by `POST /api/coupons/validate`. -/
structure CouponEcho where
  code : String
  type : String
  amount : ℚ
deriving DecidableEq, Repr

/-- The success payload of `POST /api/coupons/validate`. -/
structure ValidateResult where
  finalPrice : ℚ
  coupon : CouponEcho
deriving DecidableEq, Repr

/-- ECMAScript `Math.round` on an exact rational: nearest integer with
ties rounded toward positive infinity, i.e. `⌊x + 1/2⌋`. -/
def jsMathRound (q : ℚ) : ℤ := ⌊q + 1 / 2⌋

/-- The seeded default coupon catalog of `readCouponsSafe` (lines 47-63);
the five `uuidv4()` ids are opaque parameters. -/
def defaultCoupons (i1 i2 i3 i4 i5 : String) : List Coupon :=
  [ { id := i1, code := "BADMINTON20", type := "percent", amount := 20,
      maxUses := some 9999, used := some 0 },
    { id := i2, code := "BASKETBALL20", type := "percent", amount := 20,
      maxUses := some 9999, used := some 0 },
    { id := i3, code := "TENNIS20", type := "percent", amount := 20,
      maxUses := some 9999, used := some 0 },
    { id := i4, code := "PICKLEBALL20", type := "percent", amount := 20,
      maxUses := some 9999, used := some 0 },
    { id := i5, code := "SOCCER20", type := "percent", amount := 20,
      maxUses := some 9999, used := some 0 } ]

/-- JavaScript `String(code).toUpperCase()` restricted to ASCII, which
covers every coupon code of the catalog (the embedding maps each character
through the ASCII upper-case map). -/
def jsToUpper (s : String) : String := String.mk (s.data.map Char.toUpper)

/-- `POST /api/coupons/validate` (lines 268-310).  Returns the response and
the coupon collection as left on disk by the handler (the handler never
writes the catalog: validation performs no `writeCouponsSafe`). -/
def validateCoupon (coupons : List Coupon) (code : Option String)
    (originalPrice : Option ℚ) : Except Err ValidateResult × List Coupon :=
  if ¬ truthy code = true ∨ originalPrice = none then (.error .validation, coupons)
  else
    match coupons.find? (fun c => decide (c.code = jsToUpper (code.getD ""))) with
    | none => (.error .notFound, coupons)
    | some coupon =>
      if jsOrNum coupon.used 0 ≥ jsOrNum coupon.maxUses 999999 then
        (.error .exhausted, coupons)
      else
        let fp0 := originalPrice.getD 0
        let fp1 := if coupon.type = "percent" then fp0 - fp0 * coupon.amount / 100
                   else if coupon.type = "fixed" then max 0 (fp0 - coupon.amount)
                   else fp0
        (.ok { finalPrice := (jsMathRound (fp1 * 100) : ℚ) / 100,
               coupon := { code := coupon.code, type := coupon.type,
                           amount := coupon.amount } }, coupons)

deriving instance DecidableEq for Except

/-! Section: Lifecycle state machine -/

/-- States of the persisted booking collection reachable by sequentially
applying the four mutating handlers starting from an empty `bookings.json`.
The `create` step carries the assumption that `uuidv4()` yields an id not
already present in the collection. -/
inductive Reachable (mock : Bool) : List Booking → Prop
  | empty : Reachable mock []
  | create (s : List Booking) (p : CreatePayload) (id now : String) :
      Reachable mock s → (∀ b ∈ s, b.id ≠ id) →
      Reachable mock (createBooking mock s p id now).2
  | confirm (s : List Booking) (id now : String) :
      Reachable mock s → Reachable mock (confirmBooking mock s id now).2
  | reschedule (s : List Booking) (id : String) (date time : Option String) (now : String) :
      Reachable mock s → Reachable mock (rescheduleBooking s id date time now).2
  | cancel (s : List Booking) (id now : String) :
      Reachable mock s → Reachable mock (cancelBooking s id now).2

/-- Two bookings occupy the same `(unitId, date, time)` slot. -/
def sameSlot (b1 b2 : Booking) : Prop :=
  b1.unitId = b2.unitId ∧ b1.date = b2.date ∧ b1.time = b2.time

instance (b1 b2 : Booking) : Decidable (sameSlot b1 b2) := by
  unfold sameSlot; infer_instance

/-- A booking that blocks its slot: status in
`{pending, confirmed, confirmed_mock}`. -/
def activeB (b : Booking) : Prop :=
  b.status = "pending" ∨ b.status = "confirmed" ∨ b.status = "confirmed_mock"

instance (b : Booking) : Decidable (activeB b) := by
  unfold activeB; infer_instance

/-- Statuses that the handlers can ever write. -/
def statusWFb (b : Booking) : Prop :=
  b.status = "pending" ∨ b.status = "confirmed" ∨ b.status = "confirmed_mock" ∨
    b.status = "cancelled"

/-- The inductive invariant of the booking store: statuses are well formed,
ids are pairwise distinct, and no two distinct active bookings share a
slot. -/
def Inv (s : List Booking) : Prop :=
  (∀ b ∈ s, statusWFb b) ∧ (s.map Booking.id).Nodup ∧
    ∀ b1 ∈ s, ∀ b2 ∈ s, b1.id ≠ b2.id → activeB b1 → activeB b2 → ¬ sameSlot b1 b2

lemma sameSlot_symm {b1 b2 : Booking} (h : sameSlot b1 b2) : sameSlot b2 b1 :=
  ⟨h.1.symm, h.2.1.symm, h.2.2.symm⟩

lemma activeB_ne_cancelled {b : Booking} (h : activeB b) : b.status ≠ "cancelled" := by
  rcases h with h | h | h <;> rw [h] <;> decide

lemma activeB_of_wf {b : Booking} (hwf : statusWFb b) (h : b.status ≠ "cancelled") :
    activeB b := by
  rcases hwf with hw | hw | hw | hw
  · exact Or.inl hw
  · exact Or.inr (Or.inl hw)
  · exact Or.inr (Or.inr hw)
  · exact absurd hw h

/-! Section: Characterization of the conflict checker -/

lemma hasConflict_eq_true_iff {bs : List Booking} {u d t : String} {e : Option String} :
    hasConflict bs u d t e = true ↔
      ∃ b, b ∈ bs ∧ ¬(truthy e = true ∧ some b.id = e) ∧ b.status ≠ "cancelled" ∧
        b.unitId = u ∧ b.date = d ∧ b.time = t := by
  unfold hasConflict
  rw [List.any_eq_true]
  apply exists_congr
  intro b
  constructor
  · rintro ⟨hb, hcond⟩
    refine ⟨hb, ?_⟩
    by_cases hexc : truthy e = true ∧ some b.id = e
    · rw [if_pos hexc] at hcond
      simp at hcond
    · rw [if_neg hexc] at hcond
      by_cases hcanc : b.status = "cancelled"
      · rw [if_pos hcanc] at hcond
        simp at hcond
      · rw [if_neg hcanc] at hcond
        rw [decide_eq_true_iff] at hcond
        exact ⟨hexc, hcanc, hcond.1, hcond.2.1, hcond.2.2⟩
  · rintro ⟨hb, hexc, hcanc, h1, h2, h3⟩
    refine ⟨hb, ?_⟩
    rw [if_neg hexc, if_neg hcanc]
    exact decide_eq_true ⟨h1, h2, h3⟩

lemma hasConflict_eq_false_iff {bs : List Booking} {u d t : String} {e : Option String} :
    hasConflict bs u d t e = false ↔
      ∀ b ∈ bs, ¬(truthy e = true ∧ some b.id = e) → b.status ≠ "cancelled" →
        ¬(b.unitId = u ∧ b.date = d ∧ b.time = t) := by
  rw [← Bool.not_eq_true, hasConflict_eq_true_iff]
  constructor
  · intro h b hb hexc hcanc hm
    exact h ⟨b, hb, hexc, hcanc, hm.1, hm.2.1, hm.2.2⟩
  · rintro h ⟨b, hb, hexc, hcanc, h1, h2, h3⟩
    exact h b hb hexc hcanc ⟨h1, h2, h3⟩

/-! Section: Lookup / update decomposition -/

lemma find?_booking_cons (a : Booking) (rest : List Booking) (id : String) :
    (a :: rest).find? (fun x => decide (x.id = id)) =
      if a.id = id then some a else rest.find? (fun x => decide (x.id = id)) := by
  by_cases ha : a.id = id
  · simp [List.find?_cons, ha]
  · simp [List.find?_cons, ha]

lemma find?_decomp {s : List Booking} {id : String} {b : Booking}
    (h : s.find? (fun x => decide (x.id = id)) = some b) :
    b.id = id ∧ ∃ pre post, s = pre ++ b :: post ∧ (∀ x ∈ pre, x.id ≠ id) ∧
      ∀ nb, setFirst s id nb = pre ++ nb :: post := by
  induction s with
  | nil => simp at h
  | cons a rest ih =>
    rw [find?_booking_cons] at h
    by_cases ha : a.id = id
    · rw [if_pos ha] at h
      obtain rfl : a = b := by injection h
      refine ⟨ha, [], rest, rfl, by simp, fun nb => ?_⟩
      simp [setFirst, ha]
    · rw [if_neg ha] at h
      obtain ⟨hbid, pre, post, hs, hpre, hset⟩ := ih h
      refine ⟨hbid, a :: pre, post, by rw [hs, List.cons_append], ?_, fun nb => ?_⟩
      · intro x hx
        rcases List.mem_cons.1 hx with rfl | hx
        · exact ha
        · exact hpre x hx
      · simp [setFirst, ha, hset nb]

lemma mem_of_find?_booking {s : List Booking} {id : String} {b : Booking}
    (h : s.find? (fun x => decide (x.id = id)) = some b) : b ∈ s := by
  obtain ⟨-, pre, post, hs, -, -⟩ := find?_decomp h
  rw [hs]
  simp

lemma find?_of_mem {s : List Booking} {b : Booking} (hb : b ∈ s) (id : String)
    (hid : b.id = id) : ∃ b', s.find? (fun x => decide (x.id = id)) = some b' := by
  induction s with
  | nil => simp at hb
  | cons a rest ih =>
    by_cases ha : a.id = id
    · exact ⟨a, List.find?_cons_of_pos _ (decide_eq_true ha)⟩
    · rcases List.mem_cons.1 hb with rfl | hb
      · exact absurd hid ha
      · obtain ⟨b', hb'⟩ := ih hb
        exact ⟨b', by rw [List.find?_cons_of_neg _ (by simpa using ha)]; exact hb'⟩

lemma mem_setFirst {s : List Booking} {id : String} {nb x : Booking}
    (h : x ∈ setFirst s id nb) : x = nb ∨ x ∈ s := by
  induction s with
  | nil => simp [setFirst] at h
  | cons a rest ih =>
    rw [setFirst] at h
    by_cases ha : a.id = id
    · rw [if_pos ha] at h
      rcases List.mem_cons.1 h with rfl | h
      · exact Or.inl rfl
      · exact Or.inr (List.mem_cons.2 (Or.inr h))
    · rw [if_neg ha] at h
      rcases List.mem_cons.1 h with rfl | h
      · exact Or.inr (List.mem_cons.2 (Or.inl rfl))
      · rcases ih h with h | h
        · exact Or.inl h
        · exact Or.inr (List.mem_cons.2 (Or.inr h))

/-! Section: Invariant preservation -/

lemma inv_update {pre post : List Booking} {b nb : Booking}
    (hid : nb.id = b.id) (hwf : statusWFb nb)
    (hslot : ∀ x ∈ pre ++ b :: post, x.id ≠ b.id → activeB x → activeB nb →
      ¬ sameSlot nb x)
    (hInv : Inv (pre ++ b :: post)) : Inv (pre ++ nb :: post) := by
  obtain ⟨hwfs, hnd, hsl⟩ := hInv
  have hmem : ∀ x, x ∈ pre ++ nb :: post → x = nb ∨ x ∈ pre ++ b :: post := by
    intro x hx
    rcases List.mem_append.1 hx with hx | hx
    · exact Or.inr (List.mem_append.2 (Or.inl hx))
    · rcases List.mem_cons.1 hx with rfl | hx
      · exact Or.inl rfl
      · exact Or.inr (List.mem_append.2 (Or.inr (List.mem_cons.2 (Or.inr hx))))
  refine ⟨?_, ?_, ?_⟩
  · intro x hx
    rcases hmem x hx with rfl | hx
    · exact hwf
    · exact hwfs x hx
  · have hmap : (pre ++ nb :: post).map Booking.id = (pre ++ b :: post).map Booking.id := by
      simp [hid]
    rw [hmap]
    exact hnd
  · intro b1 h1 b2 h2 hne ha1 ha2
    rcases hmem b1 h1 with hb1 | h1' <;> rcases hmem b2 h2 with hb2 | h2'
    · rw [hb1, hb2] at hne
      exact absurd rfl hne
    · rw [hb1] at hne ha1 ⊢
      have hne2 : b2.id ≠ b.id := fun hc => hne (by rw [hid, hc])
      exact hslot b2 h2' hne2 ha2 ha1
    · rw [hb2] at hne ha2 ⊢
      have hne1 : b1.id ≠ b.id := fun hc => hne (hc.trans hid.symm)
      intro hss
      exact hslot b1 h1' hne1 ha1 ha2 (sameSlot_symm hss)
    · exact hsl b1 h1' b2 h2' hne ha1 ha2

lemma createBooking_success_decomp (mock : Bool) (s : List Booking) (p : CreatePayload)
    (id now : String)
    (hval : truthy p.serviceId = true ∧ truthy p.unitId = true ∧ truthy p.date = true ∧
      truthy p.time = true ∧ truthy p.customerName = true)
    (hC : hasConflict s (p.unitId.getD "") (p.date.getD "") (p.time.getD "") none = false) :
    createBooking mock s p id now =
      (.ok (newBooking mock p id now), s ++ [newBooking mock p id now]) := by
  rw [createBooking, if_neg (by rw [not_not]; exact hval), if_neg (by rw [hC]; decide)]

lemma inv_createBooking (mock : Bool) (s : List Booking) (p : CreatePayload)
    (id now : String) (hfresh : ∀ b ∈ s, b.id ≠ id) (hInv : Inv s) :
    Inv (createBooking mock s p id now).2 := by
  rw [createBooking]
  by_cases hval : ¬(truthy p.serviceId = true ∧ truthy p.unitId = true ∧
      truthy p.date = true ∧ truthy p.time = true ∧ truthy p.customerName = true)
  · rw [if_pos hval]
    exact hInv
  · rw [if_neg hval]
    by_cases hC : hasConflict s (p.unitId.getD "") (p.date.getD "") (p.time.getD "") none = true
    · rw [if_pos hC]
      exact hInv
    · rw [if_neg hC]
      show Inv (s ++ [newBooking mock p id now])
      obtain ⟨hwfs, hnd, hsl⟩ := hInv
      rw [Bool.not_eq_true] at hC
      have hCall := hasConflict_eq_false_iff.1 hC
      have hbk_id : (newBooking mock p id now).id = id := by
        simp [newBooking, pushHistory]
      have hbk_unit : (newBooking mock p id now).unitId = p.unitId.getD "" := by
        simp [newBooking, pushHistory]
      have hbk_date : (newBooking mock p id now).date = p.date.getD "" := by
        simp [newBooking, pushHistory]
      have hbk_time : (newBooking mock p id now).time = p.time.getD "" := by
        simp [newBooking, pushHistory]
      have hbk_status : (newBooking mock p id now).status =
          (if mock then "confirmed_mock" else "pending") := by
        simp [newBooking, pushHistory]
      have hmem : ∀ x, x ∈ s ++ [newBooking mock p id now] →
          x ∈ s ∨ x = newBooking mock p id now := by
        intro x hx
        rcases List.mem_append.1 hx with hx | hx
        · exact Or.inl hx
        · exact Or.inr (List.mem_singleton.1 hx)
      have hblock : ∀ x ∈ s, activeB x →
          ¬(x.unitId = p.unitId.getD "" ∧ x.date = p.date.getD "" ∧
            x.time = p.time.getD "") := by
        intro x hx hax
        exact hCall x hx (by simp [truthy]) (activeB_ne_cancelled hax)
      refine ⟨?_, ?_, ?_⟩
      · intro x hx
        rcases hmem x hx with hx | hx
        · exact hwfs x hx
        · unfold statusWFb
          rw [hx, hbk_status]
          cases mock <;> simp
      · rw [List.map_append, List.nodup_append]
        refine ⟨hnd, by simp, ?_⟩
        intro a ha hb
        simp only [List.map_cons, List.map_nil, List.mem_singleton, hbk_id] at hb
        obtain ⟨x, hxs, hxa⟩ := List.mem_map.1 ha
        exact hfresh x hxs (by rw [hxa, hb])
      · intro b1 h1 b2 h2 hne ha1 ha2
        rcases hmem b1 h1 with h1' | hb1 <;> rcases hmem b2 h2 with h2' | hb2
        · exact hsl b1 h1' b2 h2' hne ha1 ha2
        · rw [hb2] at ha2 ⊢
          intro hss
          refine hblock b1 h1' ha1 ⟨?_, ?_, ?_⟩
          · rw [← hbk_unit]; exact hss.1
          · rw [← hbk_date]; exact hss.2.1
          · rw [← hbk_time]; exact hss.2.2
        · rw [hb1] at ha1 ⊢
          intro hss
          refine hblock b2 h2' ha2 ⟨?_, ?_, ?_⟩
          · rw [← hbk_unit]; exact hss.1.symm
          · rw [← hbk_date]; exact hss.2.1.symm
          · rw [← hbk_time]; exact hss.2.2.symm
        · rw [hb1, hb2] at hne
          exact absurd rfl hne

lemma confirmBooking_eq_none {mock : Bool} {s : List Booking} {id now : String}
    (hfind : s.find? (fun b => decide (b.id = id)) = none) :
    confirmBooking mock s id now = (.error .notFound, s) := by
  rw [confirmBooking.eq_def, hfind]

lemma confirmBooking_eq_cancelled {mock : Bool} {s : List Booking} {id now : String}
    {b : Booking} (hfind : s.find? (fun x => decide (x.id = id)) = some b)
    (hc : b.status = "cancelled") :
    confirmBooking mock s id now = (.error .invalidState, s) := by
  rw [confirmBooking.eq_def, hfind]
  exact if_pos hc

lemma confirmBooking_eq_ok {mock : Bool} {s : List Booking} {id now : String}
    {b : Booking} (hfind : s.find? (fun x => decide (x.id = id)) = some b)
    (hc : ¬ b.status = "cancelled") :
    confirmBooking mock s id now =
      (.ok (confirmedBooking mock b now), setFirst s id (confirmedBooking mock b now)) := by
  rw [confirmBooking.eq_def, hfind]
  exact if_neg hc

lemma inv_confirmBooking (mock : Bool) (s : List Booking) (id now : String)
    (hInv : Inv s) : Inv (confirmBooking mock s id now).2 := by
  cases hfind : s.find? (fun x => decide (x.id = id)) with
  | none =>
    rw [confirmBooking_eq_none hfind]
    exact hInv
  | some b =>
    by_cases hc : b.status = "cancelled"
    · rw [confirmBooking_eq_cancelled hfind hc]
      exact hInv
    · rw [confirmBooking_eq_ok hfind hc]
      obtain ⟨hbid, pre, post, hs, hpre, hset⟩ := find?_decomp hfind
      show Inv (setFirst s id (confirmedBooking mock b now))
      rw [hset]
      subst hs
      have hb_mem : b ∈ pre ++ b :: post := by simp
      have hactb : activeB b := activeB_of_wf (hInv.1 b hb_mem) hc
      apply inv_update (b := b)
      · simp [confirmedBooking, pushHistory]
      · unfold statusWFb
        simp only [confirmedBooking, pushHistory]
        cases mock <;> simp
      · intro x hx hxid hax hanb
        have hsls := hInv.2.2 b hb_mem x hx (fun hh => hxid hh.symm) hactb hax
        intro hss
        apply hsls
        have h1 : (confirmedBooking mock b now).unitId = b.unitId := by
          simp [confirmedBooking, pushHistory]
        have h2 : (confirmedBooking mock b now).date = b.date := by
          simp [confirmedBooking, pushHistory]
        have h3 : (confirmedBooking mock b now).time = b.time := by
          simp [confirmedBooking, pushHistory]
        exact ⟨h1 ▸ hss.1, h2 ▸ hss.2.1, h3 ▸ hss.2.2⟩
      · exact hInv

lemma rescheduleBooking_eq_ok {s : List Booking} {id now : String}
    {date time : Option String} {b : Booking}
    (hval : truthy date = true ∧ truthy time = true)
    (hfind : s.find? (fun x => decide (x.id = id)) = some b)
    (hC : hasConflict s b.unitId (date.getD "") (time.getD "") (some b.id) = false) :
    rescheduleBooking s id date time now =
      (.ok (rescheduledBooking b date time now),
       setFirst s id (rescheduledBooking b date time now)) := by
  rw [rescheduleBooking, if_neg (by rw [not_not]; exact hval), hfind]
  exact if_neg (by rw [hC]; decide)

lemma rescheduleBooking_eq_notFound {s : List Booking} {id now : String}
    {date time : Option String}
    (hval : truthy date = true ∧ truthy time = true)
    (hfind : s.find? (fun x => decide (x.id = id)) = none) :
    rescheduleBooking s id date time now = (.error .notFound, s) := by
  rw [rescheduleBooking, if_neg (by rw [not_not]; exact hval), hfind]

lemma rescheduleBooking_eq_conflict {s : List Booking} {id now : String}
    {date time : Option String} {b : Booking}
    (hval : truthy date = true ∧ truthy time = true)
    (hfind : s.find? (fun x => decide (x.id = id)) = some b)
    (hC : hasConflict s b.unitId (date.getD "") (time.getD "") (some b.id) = true) :
    rescheduleBooking s id date time now = (.error .conflict, s) := by
  rw [rescheduleBooking, if_neg (by rw [not_not]; exact hval), hfind]
  exact if_pos hC

lemma inv_rescheduleBooking (s : List Booking) (id : String)
    (date time : Option String) (now : String) (hInv : Inv s) :
    Inv (rescheduleBooking s id date time now).2 := by
  by_cases hval : ¬(truthy date = true ∧ truthy time = true)
  · rw [rescheduleBooking, if_pos hval]
    exact hInv
  · rw [not_not] at hval
    cases hfind : s.find? (fun x => decide (x.id = id)) with
    | none =>
      rw [rescheduleBooking_eq_notFound hval hfind]
      exact hInv
    | some b =>
      by_cases hC : hasConflict s b.unitId (date.getD "") (time.getD "") (some b.id) = true
      · rw [rescheduleBooking_eq_conflict hval hfind hC]
        exact hInv
      · rw [Bool.not_eq_true] at hC
        rw [rescheduleBooking_eq_ok hval hfind hC]
        have hCall := hasConflict_eq_false_iff.1 hC
        obtain ⟨hbid, pre, post, hs, hpre, hset⟩ := find?_decomp hfind
        show Inv (setFirst s id (rescheduledBooking b date time now))
        have hb_mem : b ∈ s := by rw [hs]; simp
        have hu : (rescheduledBooking b date time now).unitId = b.unitId := by
          simp [rescheduledBooking, pushHistory]
        have hd : (rescheduledBooking b date time now).date = date.getD "" := by
          simp [rescheduledBooking, pushHistory]
        have ht : (rescheduledBooking b date time now).time = time.getD "" := by
          simp [rescheduledBooking, pushHistory]
        have hslot : ∀ x ∈ s, x.id ≠ b.id → activeB x →
            activeB (rescheduledBooking b date time now) →
            ¬ sameSlot (rescheduledBooking b date time now) x := by
          intro x hx hxid hax _
          have hexc : ¬(truthy (some b.id) = true ∧ some x.id = some b.id) := by
            rintro ⟨-, heq⟩
            exact hxid (Option.some.inj heq)
          have := hCall x hx hexc (activeB_ne_cancelled hax)
          intro hss
          exact this ⟨hss.1.symm.trans hu, hss.2.1.symm.trans hd, hss.2.2.symm.trans ht⟩
        rw [hset]
        subst hs
        apply inv_update (b := b)
        · simp [rescheduledBooking, pushHistory]
        · unfold statusWFb
          simp only [rescheduledBooking, pushHistory]
          exact hInv.1 b hb_mem
        · exact hslot
        · exact hInv

lemma cancelBooking_eq_none {s : List Booking} {id now : String}
    (hfind : s.find? (fun b => decide (b.id = id)) = none) :
    cancelBooking s id now = (.error .notFound, s) := by
  rw [cancelBooking.eq_def, hfind]

lemma cancelBooking_eq_ok {s : List Booking} {id now : String} {b : Booking}
    (hfind : s.find? (fun x => decide (x.id = id)) = some b) :
    cancelBooking s id now =
      (.ok (cancelledBooking b now), setFirst s id (cancelledBooking b now)) := by
  rw [cancelBooking.eq_def, hfind]

lemma not_activeB_cancelled {b : Booking} (h : b.status = "cancelled") : ¬ activeB b := by
  rintro (ha | ha | ha) <;> rw [h] at ha <;> simp at ha

lemma inv_cancelBooking (s : List Booking) (id now : String) (hInv : Inv s) :
    Inv (cancelBooking s id now).2 := by
  cases hfind : s.find? (fun x => decide (x.id = id)) with
  | none =>
    rw [cancelBooking_eq_none hfind]
    exact hInv
  | some b =>
    rw [cancelBooking_eq_ok hfind]
    obtain ⟨hbid, pre, post, hs, hpre, hset⟩ := find?_decomp hfind
    show Inv (setFirst s id (cancelledBooking b now))
    rw [hset]
    subst hs
    apply inv_update (b := b)
    · simp [cancelledBooking, pushHistory]
    · unfold statusWFb
      simp [cancelledBooking, pushHistory]
    · intro x hx hxid hax hanb
      have : (cancelledBooking b now).status = "cancelled" := by
        simp [cancelledBooking, pushHistory]
      exact absurd hanb (not_activeB_cancelled this)
    · exact hInv

/-- Every reachable booking store satisfies the inductive invariant. -/
lemma reachable_inv {mock : Bool} {s : List Booking} (h : Reachable mock s) : Inv s := by
  induction h with
  | empty =>
    refine ⟨?_, ?_, ?_⟩
    · intro b hb
      simp at hb
    · simp
    · intro b1 h1
      simp at h1
  | create s p id now hr hfresh ih => exact inv_createBooking _ _ _ _ _ hfresh ih
  | confirm s id now hr ih => exact inv_confirmBooking _ _ _ _ ih
  | reschedule s id date time now hr ih => exact inv_rescheduleBooking _ _ _ _ _ ih
  | cancel s id now hr ih => exact inv_cancelBooking _ _ _ ih

/-- Distinct-id injectivity from the invariant. -/
lemma eq_of_id_eq {s : List Booking} (hnd : (s.map Booking.id).Nodup)
    {b1 b2 : Booking} (h1 : b1 ∈ s) (h2 : b2 ∈ s) (hid : b1.id = b2.id) : b1 = b2 := by
  induction s with
  | nil => simp at h1
  | cons a rest ih =>
    rw [List.map_cons, List.nodup_cons] at hnd
    rcases List.mem_cons.1 h1 with rfl | h1' <;> rcases List.mem_cons.1 h2 with rfl | h2'
    · rfl
    · exact absurd (List.mem_map.2 ⟨b2, h2', hid.symm⟩) hnd.1
    · exact absurd (List.mem_map.2 ⟨b1, h1', hid⟩) hnd.1
    · exact ih hnd.2 h1' h2'

lemma truthy_some_of_ne {s : String} (h : s ≠ "") : truthy (some s) = true := by
  simp [truthy, h]

/-! Section: Claim C1 -/

/-- C1: No-double-booking invariant.  In every state reachable by
sequentially applying create, confirm, reschedule and cancel starting from
the empty booking store, any two distinct bookings whose status lies in
`{pending, confirmed, confirmed_mock}` differ in their
`(unitId, date, time)` triple; and cancelled bookings do not block a new
create for their slot. -/
theorem C1_no_double_booking (mock : Bool) (s : List Booking)
    (h : Reachable mock s) :
    (∀ b1 ∈ s, ∀ b2 ∈ s, b1 ≠ b2 →
      (b1.status = "pending" ∨ b1.status = "confirmed" ∨ b1.status = "confirmed_mock") →
      (b2.status = "pending" ∨ b2.status = "confirmed" ∨ b2.status = "confirmed_mock") →
      ¬(b1.unitId = b2.unitId ∧ b1.date = b2.date ∧ b1.time = b2.time)) ∧
    (∀ (p : CreatePayload) (id now : String),
      truthy p.serviceId = true → truthy p.unitId = true → truthy p.date = true →
      truthy p.time = true → truthy p.customerName = true →
      (∀ b ∈ s, b.unitId = p.unitId.getD "" → b.date = p.date.getD "" →
        b.time = p.time.getD "" → b.status = "cancelled") →
      createBooking mock s p id now =
        (.ok (newBooking mock p id now), s ++ [newBooking mock p id now])) := by
  obtain ⟨hwf, hnd, hsl⟩ := reachable_inv h
  constructor
  · intro b1 h1 b2 h2 hne ha1 ha2
    have hid : b1.id ≠ b2.id := fun hid => hne (eq_of_id_eq hnd h1 h2 hid)
    exact hsl b1 h1 b2 h2 hid ha1 ha2
  · intro p id now h1 h2 h3 h4 h5 hcanc
    apply createBooking_success_decomp
    · exact ⟨h1, h2, h3, h4, h5⟩
    · rw [hasConflict_eq_false_iff]
      intro b hb hexc hbc hm
      exact hbc (hcanc b hb hm.1 hm.2.1 hm.2.2)

def wPayloadA : CreatePayload :=
  { serviceId := some "svc-1", serviceName := some "Badminton Court",
    unitId := some "u1", unitName := some "Court 1",
    date := some "2025-01-01", time := some "10:00", customerName := some "Ann",
    contact := none, price := some 250, couponCode := none }

def wPayloadB : CreatePayload :=
  { wPayloadA with time := some "11:00", customerName := some "Bob" }

def wState1 : List Booking := (createBooking false [] wPayloadA "b1" "t1").2

def wState2 : List Booking := (createBooking false wState1 wPayloadB "b2" "t2").2

lemma wState2_reachable : Reachable false wState2 := by
  have h1 : Reachable false wState1 :=
    Reachable.create [] wPayloadA "b1" "t1" Reachable.empty (by simp)
  exact Reachable.create wState1 wPayloadB "b2" "t2" h1 (by decide)

/-- Witness for C1: in the concrete two-booking reachable state, the two
active bookings indeed occupy different slots. -/
theorem C1_no_double_booking_witness :
    ¬((newBooking false wPayloadA "b1" "t1").unitId =
        (newBooking false wPayloadB "b2" "t2").unitId ∧
      (newBooking false wPayloadA "b1" "t1").date =
        (newBooking false wPayloadB "b2" "t2").date ∧
      (newBooking false wPayloadA "b1" "t1").time =
        (newBooking false wPayloadB "b2" "t2").time) :=
  (C1_no_double_booking false wState2 wState2_reachable).1
    (newBooking false wPayloadA "b1" "t1") (by decide)
    (newBooking false wPayloadB "b2" "t2") (by decide)
    (by decide) (by decide) (by decide)

/-! Section: Claim C2 -/

def c2Booking : Booking :=
  { id := "", serviceId := "s", serviceName := none, unitId := "u", unitName := none,
    date := "2025-01-01", time := "10:00", customerName := "A", contact := none,
    price := none, couponCode := none, status := "pending", confirmationCode := none,
    createdAt := "t", updatedAt := "t", history := [] }

/-- C2 counterexample: the claimed contract "true iff some booking with
status ≠ cancelled, id ≠ excludeId and matching slot exists" fails when
`excludeId` is the empty string: the exclusion test `excludeId && b.id ===
excludeId` ignores a falsy `excludeId`, so a booking whose id equals the
empty excludeId is still counted. -/
theorem C2_counterexample :
    ¬(hasConflict [c2Booking] "u" "2025-01-01" "10:00" (some "") = true ↔
      ∃ b ∈ [c2Booking], b.status ≠ "cancelled" ∧ some b.id ≠ some "" ∧
        b.unitId = "u" ∧ b.date = "2025-01-01" ∧ b.time = "10:00") := by
  decide

/-- C2 amended: `hasConflict` returns true iff some booking matches the
slot, is not cancelled, and is not excluded — where a booking is excluded
only when `excludeId` is a truthy (non-empty, non-null) string equal to its
id.  Consequently a slot whose every occupant is cancelled never conflicts,
and a booking with a non-empty id passes the check for its own slot via
self-exclusion when no other active booking occupies that slot.
`hasConflict` is a pure function of its arguments (no side effects by
construction of the embedding). -/
theorem C2_hasConflict_contract :
    (∀ (bs : List Booking) (u d t : String) (e : Option String),
      hasConflict bs u d t e = true ↔
        ∃ b ∈ bs, ¬(truthy e = true ∧ some b.id = e) ∧ b.status ≠ "cancelled" ∧
          b.unitId = u ∧ b.date = d ∧ b.time = t) ∧
    (∀ (bs : List Booking) (u d t : String),
      (∀ b ∈ bs, b.unitId = u → b.date = d → b.time = t → b.status = "cancelled") →
      hasConflict bs u d t none = false) ∧
    (∀ (bs : List Booking) (b : Booking), b ∈ bs → b.id ≠ "" →
      (∀ b2 ∈ bs, b2.id ≠ b.id → b2.status ≠ "cancelled" → ¬ sameSlot b2 b) →
      hasConflict bs b.unitId b.date b.time (some b.id) = false) := by
  refine ⟨fun bs u d t e => hasConflict_eq_true_iff, ?_, ?_⟩
  · intro bs u d t hcanc
    rw [hasConflict_eq_false_iff]
    intro b hb hexc hbc hm
    exact hbc (hcanc b hb hm.1 hm.2.1 hm.2.2)
  · intro bs b hb hbne hother
    rw [hasConflict_eq_false_iff]
    intro b2 hb2 hexc hb2c hm
    by_cases hid : b2.id = b.id
    · exact hexc ⟨truthy_some_of_ne hbne, by rw [hid]⟩
    · exact hother b2 hb2 hid hb2c ⟨hm.1, hm.2.1, hm.2.2⟩

/-- Witness for C2: concrete instance of the amended contract — the active
booking with the empty id does conflict under the empty-string excludeId. -/
theorem C2_hasConflict_contract_witness :
    hasConflict [c2Booking] "u" "2025-01-01" "10:00" (some "") = true :=
  (C2_hasConflict_contract.1 [c2Booking] "u" "2025-01-01" "10:00" (some "")).mpr
    ⟨c2Booking, by decide, by decide, by decide, rfl, rfl, rfl⟩

/-! Section: Claim C4 -/

def c4Booking : Booking :=
  { id := "rb1", serviceId := "svc-1", serviceName := none, unitId := "u1",
    unitName := none, date := "2025-01-01", time := "10:00", customerName := "Cara",
    contact := none, price := some 400, couponCode := none, status := "cancelled",
    confirmationCode := none, createdAt := "t0", updatedAt := "t1",
    history := [{ ts := "t0", actor := "system", action := "created", note := "Booking created" },
                { ts := "t1", actor := "user", action := "cancelled", note := "Booking cancelled" }] }

/-- C4 counterexample: the reschedule handler has no status check, so a
reschedule request for a booking whose status is `cancelled` succeeds
(contradicting the claim that it does not). -/
theorem C4_counterexample :
    c4Booking.status = "cancelled" ∧
    (rescheduleBooking [c4Booking] "rb1" (some "2025-01-02") (some "09:00") "t9").1 =
      .ok (rescheduledBooking c4Booking (some "2025-01-02") (some "09:00") "t9") := by
  constructor
  · rfl
  · decide

/-- C4 amended: reschedule is permitted from any state, cancelled included:
for every found booking, valid target date/time and conflict-free target
slot, the reschedule succeeds and leaves the status unchanged, mutating
only `date`, `time`, `updatedAt` and appending one `history` entry. -/
theorem C4_reschedule_any_status (s : List Booking) (id : String)
    (date time : Option String) (now : String) (b : Booking)
    (hval : truthy date = true ∧ truthy time = true)
    (hfind : s.find? (fun x => decide (x.id = id)) = some b)
    (hC : hasConflict s b.unitId (date.getD "") (time.getD "") (some b.id) = false) :
    rescheduleBooking s id date time now =
      (.ok (rescheduledBooking b date time now),
       setFirst s id (rescheduledBooking b date time now)) ∧
    (rescheduledBooking b date time now).status = b.status ∧
    (rescheduledBooking b date time now).date = date.getD "" ∧
    (rescheduledBooking b date time now).time = time.getD "" ∧
    (rescheduledBooking b date time now).updatedAt = now ∧
    (rescheduledBooking b date time now).id = b.id ∧
    (rescheduledBooking b date time now).unitId = b.unitId ∧
    (rescheduledBooking b date time now).serviceId = b.serviceId ∧
    (rescheduledBooking b date time now).serviceName = b.serviceName ∧
    (rescheduledBooking b date time now).unitName = b.unitName ∧
    (rescheduledBooking b date time now).customerName = b.customerName ∧
    (rescheduledBooking b date time now).contact = b.contact ∧
    (rescheduledBooking b date time now).price = b.price ∧
    (rescheduledBooking b date time now).couponCode = b.couponCode ∧
    (rescheduledBooking b date time now).confirmationCode = b.confirmationCode ∧
    (rescheduledBooking b date time now).createdAt = b.createdAt ∧
    (rescheduledBooking b date time now).history = b.history ++
      [{ ts := now, actor := "user", action := "rescheduled",
         note := "From " ++ b.date ++ " " ++ b.time ++ " to " ++
                 date.getD "" ++ " " ++ time.getD "" }] := by
  refine ⟨rescheduleBooking_eq_ok hval hfind hC, ?_, ?_, ?_, ?_, ?_, ?_, ?_, ?_, ?_,
    ?_, ?_, ?_, ?_, ?_, ?_, ?_⟩ <;> simp [rescheduledBooking, pushHistory]

/-- Witness for C4: the concrete cancelled booking is rescheduled with its
status left equal to `cancelled`. -/
theorem C4_reschedule_any_status_witness :
    (rescheduledBooking c4Booking (some "2025-01-02") (some "09:00") "t9").status =
      c4Booking.status :=
  (C4_reschedule_any_status [c4Booking] "rb1" (some "2025-01-02") (some "09:00") "t9"
    c4Booking (by decide) (by decide) (by decide)).2.1

/-! Section: Claim C6 -/

lemma foldl_price_sum (bs : List Booking) (a : ℚ) :
    bs.foldl (fun sum b => sum + (match b.price with | some q => q | none => 0)) a =
      a + (bs.map (fun b => b.price.getD 0)).sum := by
  induction bs generalizing a with
  | nil => simp
  | cons b rest ih =>
    rw [List.foldl_cons, ih, List.map_cons, List.sum_cons, ← add_assoc]
    congr 1
    cases b.price <;> simp [Option.getD]

/-- C6: the analytics endpoint reports the number of bookings, the number
whose status is exactly `confirmed` (so `confirmed_mock` is not counted),
the number whose status is `cancelled`, and as revenue the sum of `price`
over every booking with a non-null price, regardless of status. -/
theorem C6_analytics_definitions (bs : List Booking) :
    (analytics bs).totalBookings = bs.length ∧
    (analytics bs).confirmed = bs.countP (fun b => decide (b.status = "confirmed")) ∧
    (analytics bs).cancelled = bs.countP (fun b => decide (b.status = "cancelled")) ∧
    (analytics bs).revenue = (bs.map (fun b => b.price.getD 0)).sum ∧
    ∀ b ∈ bs, b.status = "confirmed_mock" → decide (b.status = "confirmed") = false := by
  refine ⟨rfl, ?_, ?_, ?_, ?_⟩
  · rw [List.countP_eq_length_filter]
    rfl
  · rw [List.countP_eq_length_filter]
    rfl
  · show bs.foldl _ 0 = _
    rw [foldl_price_sum, zero_add]
  · intro b hb hmock
    rw [hmock]
    decide

def c6Booking : Booking :=
  { id := "mb1", serviceId := "svc-1", serviceName := none, unitId := "u1",
    unitName := none, date := "2025-05-05", time := "15:00", customerName := "Flo",
    contact := none, price := some 250, couponCode := none,
    status := "confirmed_mock", confirmationCode := none, createdAt := "t0",
    updatedAt := "t0", history := [] }

/-- Witness for C6: a mock-confirmed booking does not count as confirmed. -/
theorem C6_analytics_definitions_witness :
    decide (c6Booking.status = "confirmed") = false :=
  (C6_analytics_definitions [c6Booking]).2.2.2.2 c6Booking (by decide) rfl

/-! Section: Claim C7 -/

/-- C7: whenever one of the four mutating operations returns an error
(validation, conflict, not-found or invalid-state), the booking collection
it writes back is exactly the collection it read: no partial mutation is
observable on failure. -/
theorem C7_atomic_on_error :
    (∀ (mock : Bool) (s : List Booking) (p : CreatePayload) (id now : String) (e : Err),
      (createBooking mock s p id now).1 = .error e → (createBooking mock s p id now).2 = s) ∧
    (∀ (mock : Bool) (s : List Booking) (id now : String) (e : Err),
      (confirmBooking mock s id now).1 = .error e → (confirmBooking mock s id now).2 = s) ∧
    (∀ (s : List Booking) (id : String) (date time : Option String) (now : String) (e : Err),
      (rescheduleBooking s id date time now).1 = .error e →
        (rescheduleBooking s id date time now).2 = s) ∧
    (∀ (s : List Booking) (id now : String) (e : Err),
      (cancelBooking s id now).1 = .error e → (cancelBooking s id now).2 = s) := by
  refine ⟨?_, ?_, ?_, ?_⟩
  · intro mock s p id now e h
    rw [createBooking] at h ⊢
    by_cases h1 : ¬(truthy p.serviceId = true ∧ truthy p.unitId = true ∧
        truthy p.date = true ∧ truthy p.time = true ∧ truthy p.customerName = true)
    · rw [if_pos h1]
    · rw [if_neg h1] at h ⊢
      by_cases h2 : hasConflict s (p.unitId.getD "") (p.date.getD "") (p.time.getD "") none = true
      · rw [if_pos h2]
      · rw [if_neg h2] at h
        simp at h
  · intro mock s id now e h
    cases hfind : s.find? (fun x => decide (x.id = id)) with
    | none => rw [confirmBooking_eq_none hfind]
    | some b =>
      by_cases hc : b.status = "cancelled"
      · rw [confirmBooking_eq_cancelled hfind hc]
      · rw [confirmBooking_eq_ok hfind hc] at h
        simp at h
  · intro s id date time now e h
    by_cases hval : ¬(truthy date = true ∧ truthy time = true)
    · rw [rescheduleBooking, if_pos hval]
    · rw [not_not] at hval
      cases hfind : s.find? (fun x => decide (x.id = id)) with
      | none => rw [rescheduleBooking_eq_notFound hval hfind]
      | some b =>
        by_cases hC : hasConflict s b.unitId (date.getD "") (time.getD "") (some b.id) = true
        · rw [rescheduleBooking_eq_conflict hval hfind hC]
        · rw [Bool.not_eq_true] at hC
          rw [rescheduleBooking_eq_ok hval hfind hC] at h
          simp at h
  · intro s id now e h
    cases hfind : s.find? (fun x => decide (x.id = id)) with
    | none => rw [cancelBooking_eq_none hfind]
    | some b =>
      rw [cancelBooking_eq_ok hfind] at h
      simp at h

def c7Payload : CreatePayload :=
  { serviceId := none, serviceName := none, unitId := none, unitName := none,
    date := none, time := none, customerName := none, contact := none,
    price := none, couponCode := none }

/-- Witness for C7: a create with all required fields missing fails and
leaves the empty store empty. -/
theorem C7_atomic_on_error_witness :
    (createBooking false [] c7Payload "i1" "t1").2 = [] :=
  C7_atomic_on_error.1 false [] c7Payload "i1" "t1" .validation (by decide)

/-! Section: Claim C8 -/

/-- C8: every successful mutating operation appends exactly one history
entry to the affected booking, with every prior entry preserved unchanged
and in order (the new history is the old history with one entry appended),
and every other booking of the store untouched; cancel succeeds for any
existing id, an already-cancelled booking included. -/
theorem C8_history_discipline :
    (∀ (mock : Bool) (s : List Booking) (p : CreatePayload) (id now : String)
      (bk : Booking) (s' : List Booking),
      createBooking mock s p id now = (.ok bk, s') →
      bk.history = [{ ts := now, actor := "system", action := "created",
                      note := "Booking created" }] ∧ s' = s ++ [bk]) ∧
    (∀ (mock : Bool) (s : List Booking) (id now : String) (bk : Booking)
      (s' : List Booking),
      confirmBooking mock s id now = (.ok bk, s') →
      ∃ b pre post, s = pre ++ b :: post ∧ s' = pre ++ bk :: post ∧ b.id = id ∧
        bk.history = b.history ++
          [{ ts := now, actor := "system", action := "confirmed",
             note := "Booking confirmed" }]) ∧
    (∀ (s : List Booking) (id : String) (date time : Option String) (now : String)
      (bk : Booking) (s' : List Booking),
      rescheduleBooking s id date time now = (.ok bk, s') →
      ∃ b pre post, s = pre ++ b :: post ∧ s' = pre ++ bk :: post ∧ b.id = id ∧
        bk.history = b.history ++
          [{ ts := now, actor := "user", action := "rescheduled",
             note := "From " ++ b.date ++ " " ++ b.time ++ " to " ++
                     date.getD "" ++ " " ++ time.getD "" }]) ∧
    (∀ (s : List Booking) (id now : String) (b : Booking), b ∈ s → b.id = id →
      ∃ bk s', cancelBooking s id now = (.ok bk, s') ∧
        ∃ b0 pre post, s = pre ++ b0 :: post ∧ s' = pre ++ bk :: post ∧ b0.id = id ∧
          bk.history = b0.history ++
            [{ ts := now, actor := "user", action := "cancelled",
               note := "Booking cancelled" }]) := by
  refine ⟨?_, ?_, ?_, ?_⟩
  · intro mock s p id now bk s' h
    rw [createBooking] at h
    by_cases h1 : ¬(truthy p.serviceId = true ∧ truthy p.unitId = true ∧
        truthy p.date = true ∧ truthy p.time = true ∧ truthy p.customerName = true)
    · rw [if_pos h1] at h
      simp at h
    · rw [if_neg h1] at h
      by_cases h2 : hasConflict s (p.unitId.getD "") (p.date.getD "") (p.time.getD "") none = true
      · rw [if_pos h2] at h
        simp at h
      · rw [if_neg h2] at h
        rw [Prod.mk.injEq] at h
        obtain ⟨hbk, hs'⟩ := h
        obtain rfl : newBooking mock p id now = bk := by
          injection hbk
        exact ⟨by simp [newBooking, pushHistory], hs'.symm⟩
  · intro mock s id now bk s' h
    cases hfind : s.find? (fun x => decide (x.id = id)) with
    | none =>
      rw [confirmBooking_eq_none hfind] at h
      simp at h
    | some b =>
      by_cases hc : b.status = "cancelled"
      · rw [confirmBooking_eq_cancelled hfind hc] at h
        simp at h
      · rw [confirmBooking_eq_ok hfind hc] at h
        rw [Prod.mk.injEq] at h
        obtain ⟨hbk, hs'⟩ := h
        obtain rfl : confirmedBooking mock b now = bk := by
          injection hbk
        obtain ⟨hbid, pre, post, hs, hpre, hset⟩ := find?_decomp hfind
        refine ⟨b, pre, post, hs, ?_, hbid, ?_⟩
        · rw [← hs', hset]
        · simp [confirmedBooking, pushHistory]
  · intro s id date time now bk s' h
    by_cases hval : ¬(truthy date = true ∧ truthy time = true)
    · rw [rescheduleBooking, if_pos hval] at h
      simp at h
    · rw [not_not] at hval
      cases hfind : s.find? (fun x => decide (x.id = id)) with
      | none =>
        rw [rescheduleBooking_eq_notFound hval hfind] at h
        simp at h
      | some b =>
        by_cases hC : hasConflict s b.unitId (date.getD "") (time.getD "") (some b.id) = true
        · rw [rescheduleBooking_eq_conflict hval hfind hC] at h
          simp at h
        · rw [Bool.not_eq_true] at hC
          rw [rescheduleBooking_eq_ok hval hfind hC] at h
          rw [Prod.mk.injEq] at h
          obtain ⟨hbk, hs'⟩ := h
          obtain rfl : rescheduledBooking b date time now = bk := by
            injection hbk
          obtain ⟨hbid, pre, post, hs, hpre, hset⟩ := find?_decomp hfind
          refine ⟨b, pre, post, hs, ?_, hbid, ?_⟩
          · rw [← hs', hset]
          · simp [rescheduledBooking, pushHistory]
  · intro s id now b hb hbid
    obtain ⟨b0, hfind⟩ := find?_of_mem hb id hbid
    obtain ⟨hb0id, pre, post, hs, hpre, hset⟩ := find?_decomp hfind
    refine ⟨cancelledBooking b0 now, setFirst s id (cancelledBooking b0 now),
      cancelBooking_eq_ok hfind, b0, pre, post, hs, hset _, hb0id, ?_⟩
    simp [cancelledBooking, pushHistory]

def c8Payload : CreatePayload :=
  { serviceId := some "svc-2", serviceName := none, unitId := some "u7",
    unitName := none, date := some "2025-03-03", time := some "12:00",
    customerName := some "Dee", contact := none, price := none, couponCode := none }

/-- Witness for C8: the concrete created booking carries exactly one
history entry and is appended to the store. -/
theorem C8_history_discipline_witness :
    (newBooking false c8Payload "h1" "t1").history =
      [{ ts := "t1", actor := "system", action := "created",
         note := "Booking created" }] ∧
    (createBooking false [] c8Payload "h1" "t1").2 =
      [] ++ [newBooking false c8Payload "h1" "t1"] :=
  C8_history_discipline.1 false [] c8Payload "h1" "t1"
    (newBooking false c8Payload "h1" "t1")
    (createBooking false [] c8Payload "h1" "t1").2 (by decide)

/-! Section: Claim C9 -/

def c9Payload : CreatePayload :=
  { serviceId := some "svc-1", serviceName := none, unitId := some "u9",
    unitName := none, date := some "2025-04-04", time := some "13:00",
    customerName := some "Eve", contact := none, price := some (-50),
    couponCode := none }

def c9State : List Booking := (createBooking false [] c9Payload "n1" "t1").2

/-- C9 counterexample: the create handler persists `Number(p.price)` with
no sign validation, so a reachable state can contain a booking with a
negative price. -/
theorem C9_counterexample :
    Reachable false c9State ∧ ∃ b ∈ c9State, ∃ q, b.price = some q ∧ q < 0 := by
  constructor
  · exact Reachable.create [] c9Payload "n1" "t1" Reachable.empty (by simp)
  · exact ⟨newBooking false c9Payload "n1" "t1", by decide, -50, by decide, by decide⟩

/-- C9 amended: a booking's price is fixed at creation as exactly the
payload's (possibly negative) price — no sign check is performed — and no
other operation ever alters any booking's price, so price non-negativity
holds only when every create payload carries a null or non-negative
price. -/
theorem C9_price_passthrough :
    (∀ (mock : Bool) (s : List Booking) (p : CreatePayload) (id now : String)
      (bk : Booking) (s' : List Booking),
      createBooking mock s p id now = (.ok bk, s') → bk.price = p.price) ∧
    (∀ (mock : Bool) (s : List Booking) (id now : String) (x : Booking),
      x ∈ (confirmBooking mock s id now).2 → ∃ b ∈ s, x.price = b.price) ∧
    (∀ (s : List Booking) (id : String) (date time : Option String) (now : String)
      (x : Booking),
      x ∈ (rescheduleBooking s id date time now).2 → ∃ b ∈ s, x.price = b.price) ∧
    (∀ (s : List Booking) (id now : String) (x : Booking),
      x ∈ (cancelBooking s id now).2 → ∃ b ∈ s, x.price = b.price) := by
  refine ⟨?_, ?_, ?_, ?_⟩
  · intro mock s p id now bk s' h
    rw [createBooking] at h
    by_cases h1 : ¬(truthy p.serviceId = true ∧ truthy p.unitId = true ∧
        truthy p.date = true ∧ truthy p.time = true ∧ truthy p.customerName = true)
    · rw [if_pos h1] at h
      simp at h
    · rw [if_neg h1] at h
      by_cases h2 : hasConflict s (p.unitId.getD "") (p.date.getD "") (p.time.getD "") none = true
      · rw [if_pos h2] at h
        simp at h
      · rw [if_neg h2] at h
        rw [Prod.mk.injEq] at h
        obtain rfl : newBooking mock p id now = bk := by
          injection h.1
        simp [newBooking, pushHistory]
  · intro mock s id now x hx
    cases hfind : s.find? (fun y => decide (y.id = id)) with
    | none =>
      rw [confirmBooking_eq_none hfind] at hx
      exact ⟨x, hx, rfl⟩
    | some b =>
      by_cases hc : b.status = "cancelled"
      · rw [confirmBooking_eq_cancelled hfind hc] at hx
        exact ⟨x, hx, rfl⟩
      · rw [confirmBooking_eq_ok hfind hc] at hx
        rcases mem_setFirst hx with rfl | hx
        · exact ⟨b, mem_of_find?_booking hfind, by simp [confirmedBooking, pushHistory]⟩
        · exact ⟨x, hx, rfl⟩
  · intro s id date time now x hx
    by_cases hval : ¬(truthy date = true ∧ truthy time = true)
    · rw [rescheduleBooking, if_pos hval] at hx
      exact ⟨x, hx, rfl⟩
    · rw [not_not] at hval
      cases hfind : s.find? (fun y => decide (y.id = id)) with
      | none =>
        rw [rescheduleBooking_eq_notFound hval hfind] at hx
        exact ⟨x, hx, rfl⟩
      | some b =>
        by_cases hC : hasConflict s b.unitId (date.getD "") (time.getD "") (some b.id) = true
        · rw [rescheduleBooking_eq_conflict hval hfind hC] at hx
          exact ⟨x, hx, rfl⟩
        · rw [Bool.not_eq_true] at hC
          rw [rescheduleBooking_eq_ok hval hfind hC] at hx
          rcases mem_setFirst hx with rfl | hx
          · exact ⟨b, mem_of_find?_booking hfind, by simp [rescheduledBooking, pushHistory]⟩
          · exact ⟨x, hx, rfl⟩
  · intro s id now x hx
    cases hfind : s.find? (fun y => decide (y.id = id)) with
    | none =>
      rw [cancelBooking_eq_none hfind] at hx
      exact ⟨x, hx, rfl⟩
    | some b =>
      rw [cancelBooking_eq_ok hfind] at hx
      rcases mem_setFirst hx with rfl | hx
      · exact ⟨b, mem_of_find?_booking hfind, by simp [cancelledBooking, pushHistory]⟩
      · exact ⟨x, hx, rfl⟩

/-- Witness for C9: the concrete created booking carries exactly the
payload's (negative) price. -/
theorem C9_price_passthrough_witness :
    (newBooking false c9Payload "n1" "t1").price = c9Payload.price :=
  C9_price_passthrough.1 false [] c9Payload "n1" "t1"
    (newBooking false c9Payload "n1" "t1") c9State (by decide)

/-! Section: Coupon handler branch equations -/

lemma validateCoupon_not_degenerate {code : String} {price : ℚ} (hne : code ≠ "") :
    ¬(¬ truthy (some code) = true ∨ (some price : Option ℚ) = none) := by
  rintro (h | h)
  · exact h (truthy_some_of_ne hne)
  · exact Option.some_ne_none _ h

lemma validateCoupon_eq_notFound {coupons : List Coupon} {code : String} {price : ℚ}
    (hne : code ≠ "")
    (hfind : coupons.find? (fun c => decide (c.code = jsToUpper code)) = none) :
    validateCoupon coupons (some code) (some price) = (.error .notFound, coupons) := by
  rw [validateCoupon, if_neg (validateCoupon_not_degenerate hne)]
  simp only [Option.getD_some]
  rw [hfind]

lemma validateCoupon_eq_exhausted {coupons : List Coupon} {code : String} {price : ℚ}
    {c : Coupon} (hne : code ≠ "")
    (hfind : coupons.find? (fun x => decide (x.code = jsToUpper code)) = some c)
    (hgate : jsOrNum c.used 0 ≥ jsOrNum c.maxUses 999999) :
    validateCoupon coupons (some code) (some price) = (.error .exhausted, coupons) := by
  rw [validateCoupon, if_neg (validateCoupon_not_degenerate hne)]
  simp only [Option.getD_some]
  rw [hfind]
  exact if_pos hgate

lemma validateCoupon_eq_ok {coupons : List Coupon} {code : String} {price : ℚ}
    {c : Coupon} (hne : code ≠ "")
    (hfind : coupons.find? (fun x => decide (x.code = jsToUpper code)) = some c)
    (hgate : ¬ jsOrNum c.used 0 ≥ jsOrNum c.maxUses 999999) :
    validateCoupon coupons (some code) (some price) =
      (.ok { finalPrice :=
               (jsMathRound ((if c.type = "percent" then price - price * c.amount / 100
                 else if c.type = "fixed" then max 0 (price - c.amount)
                 else price) * 100) : ℚ) / 100,
             coupon := { code := c.code, type := c.type, amount := c.amount } },
       coupons) := by
  rw [validateCoupon, if_neg (validateCoupon_not_degenerate hne)]
  simp only [Option.getD_some]
  rw [hfind]
  exact if_neg hgate

/-! Section: Claim C3 -/

/-- Modelled from the spec for comparison only (claim C3): "rounds the
result to 2 decimal places using round-half-away-from-zero at the cent
boundary (multiply by 100, round to nearest integer, divide by 100)". -/
def specRoundHalfAwayCents (q : ℚ) : ℚ :=
  (if 0 ≤ q then (⌊q * 100 + 1 / 2⌋ : ℚ) else -(⌊-(q * 100) + 1 / 2⌋ : ℚ)) / 100

def c3Coupon : Coupon :=
  { id := "c-neg", code := "NEG150", type := "percent", amount := 150,
    maxUses := some 9999, used := some 0 }

/-- C3 counterexample: JavaScript `Math.round` rounds ties toward positive
infinity, not away from zero.  For the catalog coupon `NEG150`
(percent, 150) and `originalPrice = 0.01` the intermediate price is
`-0.005`; the handler returns `0.00`, while rounding half away from zero
would give `-0.01`. -/
theorem C3_counterexample :
    (validateCoupon [c3Coupon] (some "NEG150") (some (1 / 100))).1 =
      .ok { finalPrice := 0,
            coupon := { code := "NEG150", type := "percent", amount := 150 } } ∧
    specRoundHalfAwayCents (1 / 100 - (1 / 100) * 150 / 100) = -(1 / 100) ∧
    (0 : ℚ) ≠ -(1 / 100) := by
  have hfind : [c3Coupon].find? (fun x => decide (x.code = jsToUpper "NEG150")) =
      some c3Coupon := rfl
  have hgate : ¬ jsOrNum c3Coupon.used 0 ≥ jsOrNum c3Coupon.maxUses 999999 := by
    norm_num [jsOrNum, c3Coupon]
  refine ⟨?_, ?_, by norm_num⟩
  · rw [validateCoupon_eq_ok (by decide) hfind hgate]
    norm_num [c3Coupon, jsMathRound]
  · norm_num [specRoundHalfAwayCents]

/-- C3 amended: for every validated coupon, the handler computes
percent / fixed / pass-through exactly as claimed and then rounds at the
cent boundary with ties toward positive infinity (`Math.round`:
`⌊x·100 + 1/2⌋ / 100`), which agrees with half-away-from-zero whenever the
discounted price is non-negative; in particular `BADMINTON20` at 250 gives
200.00 and `TENNIS20` at 99.99 gives 79.99. -/
theorem C3_discount_arithmetic :
    (∀ (coupons : List Coupon) (code : String) (price : ℚ) (c : Coupon),
      code ≠ "" →
      coupons.find? (fun x => decide (x.code = jsToUpper code)) = some c →
      ¬ jsOrNum c.used 0 ≥ jsOrNum c.maxUses 999999 →
      (validateCoupon coupons (some code) (some price)).1 =
        .ok { finalPrice :=
                (jsMathRound ((if c.type = "percent" then price - price * c.amount / 100
                  else if c.type = "fixed" then max 0 (price - c.amount)
                  else price) * 100) : ℚ) / 100,
              coupon := { code := c.code, type := c.type, amount := c.amount } }) ∧
    (∀ q : ℚ, 0 ≤ q →
      ((jsMathRound (q * 100) : ℚ) / 100 = specRoundHalfAwayCents q)) ∧
    (∀ i1 i2 i3 i4 i5 : String,
      (validateCoupon (defaultCoupons i1 i2 i3 i4 i5) (some "BADMINTON20") (some 250)).1 =
        .ok { finalPrice := 200,
              coupon := { code := "BADMINTON20", type := "percent", amount := 20 } }) ∧
    (∀ i1 i2 i3 i4 i5 : String,
      (validateCoupon (defaultCoupons i1 i2 i3 i4 i5) (some "TENNIS20") (some (9999 / 100))).1 =
        .ok { finalPrice := 7999 / 100,
              coupon := { code := "TENNIS20", type := "percent", amount := 20 } }) := by
  refine ⟨?_, ?_, ?_, ?_⟩
  · intro coupons code price c hne hfind hgate
    rw [validateCoupon_eq_ok hne hfind hgate]
  · intro q hq
    unfold specRoundHalfAwayCents jsMathRound
    rw [if_pos hq]
  · intro i1 i2 i3 i4 i5
    have hfind : (defaultCoupons i1 i2 i3 i4 i5).find?
        (fun x => decide (x.code = jsToUpper "BADMINTON20")) =
        some { id := i1, code := "BADMINTON20", type := "percent", amount := 20,
               maxUses := some 9999, used := some 0 } := rfl
    rw [validateCoupon_eq_ok (by decide) hfind (by norm_num [jsOrNum])]
    norm_num [jsMathRound]
  · intro i1 i2 i3 i4 i5
    have hfind : (defaultCoupons i1 i2 i3 i4 i5).find?
        (fun x => decide (x.code = jsToUpper "TENNIS20")) =
        some { id := i3, code := "TENNIS20", type := "percent", amount := 20,
               maxUses := some 9999, used := some 0 } := rfl
    rw [validateCoupon_eq_ok (by decide) hfind (by norm_num [jsOrNum])]
    norm_num [jsMathRound]

/-- Witness for C3: the general discount formula applied to the seeded
catalog, SOCCER20 at price 100. -/
theorem C3_discount_arithmetic_witness :
    (validateCoupon (defaultCoupons "k1" "k2" "k3" "k4" "k5") (some "SOCCER20") (some 100)).1 =
      .ok { finalPrice :=
              (jsMathRound ((if ("percent" : String) = "percent" then (100 : ℚ) - 100 * 20 / 100
                else if ("percent" : String) = "fixed" then max 0 ((100 : ℚ) - 20)
                else (100 : ℚ)) * 100) : ℚ) / 100,
            coupon := { code := "SOCCER20", type := "percent", amount := 20 } } :=
  C3_discount_arithmetic.1 (defaultCoupons "k1" "k2" "k3" "k4" "k5") "SOCCER20" 100
    { id := "k5", code := "SOCCER20", type := "percent", amount := 20,
      maxUses := some 9999, used := some 0 }
    (by decide) rfl (by norm_num [jsOrNum])

/-! Section: Claim C5 -/

def c5Coupon : Coupon :=
  { id := "c-zed", code := "ZED", type := "percent", amount := 20,
    maxUses := some 0, used := some 0 }

/-- C5 counterexample: the usage gate is `(used || 0) >= (maxUses || 999999)`
with JavaScript truthiness, so this coupon — whose `maxUses` is set to 0 and
whose `used` (0) is ≥ that `maxUses` — still validates successfully instead
of failing with the exhausted error, contradicting the claim that
validation fails with ExhaustedError whenever `used >= maxUses` with
`maxUses` set. -/
theorem C5_counterexample :
    c5Coupon.maxUses = some 0 ∧ c5Coupon.used = some 0 ∧ (0 : ℚ) ≥ 0 ∧
    (validateCoupon [c5Coupon] (some "zed") (some 100)).1 =
      .ok { finalPrice := 80,
            coupon := { code := "ZED", type := "percent", amount := 20 } } := by
  have hfind : [c5Coupon].find? (fun x => decide (x.code = jsToUpper "zed")) =
      some c5Coupon := rfl
  have hgate : ¬ jsOrNum c5Coupon.used 0 ≥ jsOrNum c5Coupon.maxUses 999999 := by
    norm_num [jsOrNum, c5Coupon]
  refine ⟨rfl, rfl, le_refl 0, ?_⟩
  rw [validateCoupon_eq_ok (by decide) hfind hgate]
  norm_num [c5Coupon, jsMathRound]

/-- C5 amended: validateCoupon uppercases the input code and fails with
NotFoundError iff no catalog entry's code equals the uppercased input; it
fails with ExhaustedError iff `(used or 0) ≥ (maxUses or 999999)`, where
any falsy `maxUses` — unset or 0 — is replaced by 999999; and it returns
the catalog unchanged (no mutation of `used` or any other part). -/
theorem C5_coupon_validation_gating (coupons : List Coupon) (code : String)
    (price : ℚ) (hne : code ≠ "") :
    (validateCoupon coupons (some code) (some price)).2 = coupons ∧
    ((validateCoupon coupons (some code) (some price)).1 = .error .notFound ↔
      coupons.find? (fun c => decide (c.code = jsToUpper code)) = none) ∧
    (∀ c, coupons.find? (fun x => decide (x.code = jsToUpper code)) = some c →
      ((validateCoupon coupons (some code) (some price)).1 = .error .exhausted ↔
        jsOrNum c.used 0 ≥ jsOrNum c.maxUses 999999)) := by
  cases hfind : coupons.find? (fun x => decide (x.code = jsToUpper code)) with
  | none =>
    rw [validateCoupon_eq_notFound hne hfind]
    refine ⟨rfl, by simp, ?_⟩
    intro c hc
    cases hc
  | some c0 =>
    by_cases hgate : jsOrNum c0.used 0 ≥ jsOrNum c0.maxUses 999999
    · rw [validateCoupon_eq_exhausted hne hfind hgate]
      refine ⟨rfl, by simp, ?_⟩
      intro c hc
      obtain rfl : c0 = c := by injection hc
      simp [hgate]
    · rw [validateCoupon_eq_ok hne hfind hgate]
      refine ⟨rfl, by simp, ?_⟩
      intro c hc
      obtain rfl : c0 = c := by injection hc
      simp [hgate]

/-- Witness for C5: a lookup against the seeded catalog leaves the catalog
unchanged. -/
theorem C5_coupon_validation_gating_witness :
    (validateCoupon (defaultCoupons "m1" "m2" "m3" "m4" "m5") (some "NOPE") (some 5)).2 =
      defaultCoupons "m1" "m2" "m3" "m4" "m5" :=
  (C5_coupon_validation_gating (defaultCoupons "m1" "m2" "m3" "m4" "m5") "NOPE" 5
    (by decide)).1

/-! Section: Claim C10 -/

def c10Coupon : Coupon :=
  { id := "c-m0", code := "M0", type := "percent", amount := 20,
    maxUses := some 0, used := some 0 }

/-- C10: the usage gate is `(used or 0) ≥ (maxUses or 999999)` with
JavaScript truthiness, so any falsy `maxUses` — the number 0 included, not
only an unset field — is treated as a ceiling of 999999; the exhausted
branch for a matched coupon fires iff that comparison holds, and the
concrete coupon with `maxUses = 0` and `used = 0` validates successfully
rather than failing with ExhaustedError. -/
theorem C10_falsy_maxUses :
    (∀ c : Coupon, (c.maxUses = none ∨ c.maxUses = some 0) →
      jsOrNum c.maxUses 999999 = 999999) ∧
    (∀ (coupons : List Coupon) (code : String) (price : ℚ) (c : Coupon),
      code ≠ "" →
      coupons.find? (fun x => decide (x.code = jsToUpper code)) = some c →
      ((validateCoupon coupons (some code) (some price)).1 = .error .exhausted ↔
        jsOrNum c.used 0 ≥ jsOrNum c.maxUses 999999)) ∧
    (validateCoupon [c10Coupon] (some "M0") (some 100)).1 =
      .ok { finalPrice := 80,
            coupon := { code := "M0", type := "percent", amount := 20 } } := by
  refine ⟨?_, ?_, ?_⟩
  · rintro c (h | h) <;> rw [h] <;> norm_num [jsOrNum]
  · intro coupons code price c hne hfind
    by_cases hgate : jsOrNum c.used 0 ≥ jsOrNum c.maxUses 999999
    · rw [validateCoupon_eq_exhausted hne hfind hgate]
      simp [hgate]
    · rw [validateCoupon_eq_ok hne hfind hgate]
      simp [hgate]
  · have hfind : [c10Coupon].find? (fun x => decide (x.code = jsToUpper "M0")) =
        some c10Coupon := rfl
    rw [validateCoupon_eq_ok (by decide) hfind (by norm_num [jsOrNum, c10Coupon])]
    norm_num [c10Coupon, jsMathRound]

/-- Witness for C10: the exhausted-branch characterization applied to the
concrete falsy-maxUses coupon (looked up in lower case). -/
theorem C10_falsy_maxUses_witness :
    (validateCoupon [c10Coupon] (some "m0") (some 100)).1 = .error .exhausted ↔
      jsOrNum c10Coupon.used 0 ≥ jsOrNum c10Coupon.maxUses 999999 :=
  C10_falsy_maxUses.2.1 [c10Coupon] "m0" 100 c10Coupon (by decide) rfl

end Courtify
